import Mathlib

/-!
Shallow embedding of Helm's provenance subsystem (pkg/provenance/sign.go):
data model, identity resolution, clear-signing and verification, and the
message-block codec.  External collaborators (os, crypto/sha256, the yaml
serializer, the openpgp/clearsign library, chartutil) are modelled
symbolically: file system access is a record of typed accessors, the hash
and the yaml (de)serializers are explicit function parameters, and the
clearsign envelope is a symbolic block recording plaintext and signer key.
-/

deriving instance DecidableEq for Except

namespace Provenance

/-- Model of os.FileInfo; only IsDir is consulted by the code. -/
structure FileInfo where
  isDir : Bool
deriving DecidableEq

/-- Outcome of opening a file and streaming it (os.Open followed by io.Copy):
either the full byte content, or a partial read that ended in an error. -/
inductive ReadOutcome where
  | full (bytes : List Nat)
  | failed (part : List Nat) (err : String)
deriving DecidableEq

/-- Symbolic openpgp.Entity: the Go map of named sub-identities is kept as the
list of its keys (names), the private key is abstract key material, and keyId
identifies the public key for keyring matching. -/
structure Entity where
  identities : List String
  privateKey : Option Nat
  keyId : Nat
deriving DecidableEq

/-- openpgp.EntityList. -/
abbrev EntityList := List Entity

/-- Signatory from sign.go: an optional signing entity and a keyring. -/
structure Signatory where
  entity : Option Entity
  keyRing : EntityList
deriving DecidableEq

/-- Verification from sign.go: SignedBy pointer (nil modelled as none) and
FileHash string. -/
structure Verification where
  signedBy : Option Entity
  fileHash : String
deriving DecidableEq

/-- SumCollection from sign.go; the Go maps are association lists. -/
structure SumCollection where
  files : List (String × String)
  images : List (String × String)
deriving DecidableEq

/-- Symbolic clearsign.Block: the signed plaintext plus the id of the key
that produced the armored signature. -/
structure ClearBlock where
  plaintext : List Char
  signerKeyId : Nat
deriving DecidableEq

/-- The text ClearSign returns: either the empty string (the string Go
returns on its discarded-error path) or a well-formed clearsign document. -/
inductive SigText where
  | empty
  | block (b : ClearBlock)
deriving DecidableEq

/-- Result of a Go call: a value, a returned error, or a runtime panic
(nil-pointer dereference). -/
inductive GoResult (α : Type) where
  | ok (a : α)
  | err (e : String)
  | panic (e : String)
deriving DecidableEq

/-- The file system and the external decoders, as the code observes them:
stat, open-and-stream (for hashing), read-and-clearsign-decode of a
signature file, chartutil.LoadFile of an archive, and openpgp.ReadKeyRing. -/
structure FS (Meta : Type) where
  stat : String → Except String FileInfo
  readBytes : String → Except String ReadOutcome
  readSig : String → Except String SigText
  loadChart : String → Except String Meta
  loadRing : String → Except String EntityList

/-- filepath.Base for slash-separated paths: empty path gives ".", trailing
slashes are dropped, the last element is returned, all-slash gives "/". -/
def baseName (path : String) : String :=
  if path = "" then "."
  else
    let r := (path.data.reverse.dropWhile (fun c => c == '/')).takeWhile (fun c => c != '/')
    if r = [] then "/" else String.mk r.reverse

/-- The message-block separator "\n...\n" written by messageBlock. -/
def sepChars : List Char := ['\n', '.', '.', '.', '\n']

/-- The four-character proper prefix "\n..." of the separator (its only
self-overlap: a text ending in it, followed by the separator, contains an
earlier occurrence of the separator). -/
def sepLead : List Char := ['\n', '.', '.', '.']

/-- sumArchive: open the file (error propagates), stream it through SHA-256
(the io.Copy error is discarded by the source), return the hex digest.
hexHash models crypto.SHA256 + hex.EncodeToString. -/
def sumArchive {Meta : Type} (hexHash : List Nat → String) (fs : FS Meta)
    (filename : String) : Except String String :=
  match fs.readBytes filename with
  | .error e => .error e
  | .ok (.full bs) => .ok (hexHash bs)
  | .ok (.failed part _) => .ok (hexHash part)

/-- The concatenation messageBlock writes into its buffer:
metadata serialization, the separator "\n...\n", checksum serialization. -/
def encodeBlock (mdSer sumSer : List Char) : List Char :=
  mdSer ++ sepChars ++ sumSer

/-- messageBlock from sign.go: checksum the archive, build the one-entry
SumCollection keyed by the archive basename, load the chart metadata, and
serialize both around the separator.  marshalMeta / marshalSums model
yaml.Marshal on the two payloads. -/
def messageBlock {Meta : Type} (hexHash : List Nat → String)
    (marshalMeta : Meta → Except String (List Char))
    (marshalSums : SumCollection → Except String (List Char))
    (fs : FS Meta) (chartpath : String) : Except String (List Char) :=
  match sumArchive hexHash fs chartpath with
  | .error e => .error e
  | .ok chash =>
    match fs.loadChart chartpath with
    | .error e => .error e
    | .ok chart =>
      match marshalMeta chart with
      | .error e => .error e
      | .ok mdSer =>
        match marshalSums ⟨[(baseName chartpath, "sha256:" ++ chash)], []⟩ with
        | .error e => .error e
        | .ok sumSer => .ok (encodeBlock mdSer sumSer)

/-- ClearSign from sign.go.  Go dereferences s.Entity.PrivateKey before any
nil check on s.Entity, so a nil entity panics.  On a messageBlock error the
source returns ("", nil): the error is discarded and the empty string is
returned as a successful result. -/
def clearSign {Meta : Type} (hexHash : List Nat → String)
    (marshalMeta : Meta → Except String (List Char))
    (marshalSums : SumCollection → Except String (List Char))
    (s : Signatory) (fs : FS Meta) (chartpath : String) : GoResult SigText :=
  match s.entity with
  | none => .panic "runtime error: invalid memory address or nil pointer dereference"
  | some e =>
    match e.privateKey with
    | none => .err "private key not found"
    | some _ =>
      match fs.stat chartpath with
      | .error er => .err er
      | .ok fi =>
        if fi.isDir then .err "cannot sign a directory"
        else
          match messageBlock hexHash marshalMeta marshalSums fs chartpath with
          | .error _ => .ok .empty
          | .ok plaintext => .ok (.block ⟨plaintext, e.keyId⟩)

/-- strings.Contains(n, id): does the pattern occur as a contiguous
substring of the haystack? -/
def occursIn (pat : List Char) : List Char → Bool
  | [] => pat.isEmpty
  | c :: s => pat.isPrefixOf (c :: s) || occursIn pat s

/-- strings.Contains(n, id) as used by NewFromKeyring (id inside label n). -/
def labelMatches (id n : String) : Bool := occursIn id.data n.data

/-- State of the NewFromKeyring scan: an exact match short-circuits with its
entity, otherwise the candidate / vague pair is threaded through. -/
inductive ScanStep where
  | exact (e : Entity)
  | state (cand : Option Entity) (vague : Bool)
deriving DecidableEq

/-- Inner loop of NewFromKeyring over one entity's identity names. -/
def scanIdents (id : String) (e : Entity) :
    List String → Option Entity → Bool → ScanStep
  | [], cand, vague => .state cand vague
  | n :: ns, cand, vague =>
    if n = id then .exact e
    else if labelMatches id n then scanIdents id e ns (some e) (vague || cand.isSome)
    else scanIdents id e ns cand vague

/-- Outer loop of NewFromKeyring over the keyring entities. -/
def scanRing (id : String) : EntityList → Option Entity → Bool → ScanStep
  | [], cand, vague => .state cand vague
  | e :: es, cand, vague =>
    match scanIdents id e e.identities cand vague with
    | .exact e2 => .exact e2
    | .state cand2 vague2 => scanRing id es cand2 vague2

/-- Go fmt %q of a plain string (no escaping needed for the names used
here). -/
def goQuote (s : String) : String := "\"" ++ s ++ "\""

/-- NewFromKeyring from sign.go: load the ring; an empty id means no signing
entity; otherwise scan for an exact name match (returned immediately),
recording substring matches, and report ambiguity when a second substring
match was seen. -/
def newFromKeyring {Meta : Type} (fs : FS Meta) (keyringfile id : String) :
    Except String Signatory :=
  match fs.loadRing keyringfile with
  | .error e => .error e
  | .ok ring =>
    if id = "" then .ok ⟨none, ring⟩
    else
      match scanRing id ring none false with
      | .exact e => .ok ⟨some e, ring⟩
      | .state cand vague =>
        if vague then .error ("more than one key contain the id " ++ goQuote id)
        else .ok ⟨cand, ring⟩

/-- decodeSignature from sign.go: read the signature file (I/O errors
propagate) and clearsign-decode it; a file with no signature block is the
"signature block not found" error. -/
def decodeSignature {Meta : Type} (fs : FS Meta) (filename : String) :
    Except String ClearBlock :=
  match fs.readSig filename with
  | .error e => .error e
  | .ok .empty => .error "signature block not found"
  | .ok (.block b) => .ok b

/-- Symbolic openpgp.CheckDetachedSignature: succeeds with the matching ring
entity exactly when the signer's key is in the keyring. -/
def checkDetachedSignature (ring : EntityList) (b : ClearBlock) :
    Except String Entity :=
  match ring.find? (fun e => e.keyId == b.signerKeyId) with
  | some e => .ok e
  | none => .error "openpgp: signature made by unknown entity"

/-- First occurrence split used to model bytes.Split: none when the
separator does not occur, otherwise the part before the first occurrence
and the remainder after it. -/
def splitFirst (sep : List Char) : List Char → Option (List Char × List Char)
  | [] => if sep.isPrefixOf ([] : List Char) then some ([], []) else none
  | c :: s =>
    if sep.isPrefixOf (c :: s) then some ([], (c :: s).drop sep.length)
    else (splitFirst sep s).map (fun p => (c :: p.1, p.2))

/-- parts[0] and parts[1] of bytes.Split(data, "\n...\n"): none when there
is no occurrence (fewer than two parts), else the segment before the first
occurrence and the segment between the first and second occurrence (or the
rest when there is exactly one occurrence). -/
def blockParts (data : List Char) : Option (List Char × List Char) :=
  match splitFirst sepChars data with
  | none => none
  | some (p0, rest) =>
    match splitFirst sepChars rest with
    | some (p1, _) => some (p0, p1)
    | none => some (p0, rest)

/-- parseMessageBlock from sign.go: split on the separator, error when there
are fewer than two parts, then yaml-unmarshal part 0 into metadata and part
1 into the SumCollection. -/
def parseMessageBlock {Meta : Type} (um : List Char → Except String Meta)
    (us : List Char → Except String SumCollection)
    (data : List Char) : Except String (Meta × SumCollection) :=
  match blockParts data with
  | none => .error "message block must have at least two parts"
  | some (p0, p1) =>
    match um p0 with
    | .error e => .error e
    | .ok md =>
      match us p1 with
      | .error e => .error e
      | .ok sc => .ok (md, sc)

/-- Go map lookup sums.Files[basename] on the association-list model. -/
def lookupFile (files : List (String × String)) (k : String) : Option String :=
  (files.find? (fun p => p.1 == k)).map (fun p => p.2)

/-- The zero Verification Go allocates at the top of Verify. -/
def emptyVerification : Verification := ⟨none, ""⟩

/-- Verify from sign.go: stat both paths (rejecting directories), decode and
check the clearsign signature against the keyring, record the signer,
recompute the archive digest, parse the embedded message block and compare
the basename's recorded digest with the recomputed one.  The returned pair
models Go's (ver, err): err = none is success. -/
def verify {Meta : Type} (hexHash : List Nat → String)
    (um : List Char → Except String Meta)
    (us : List Char → Except String SumCollection)
    (s : Signatory) (fs : FS Meta) (chartpath sigpath : String) :
    Verification × Option String :=
  match fs.stat chartpath with
  | .error e => (emptyVerification, some e)
  | .ok fi =>
    if fi.isDir then (emptyVerification, some (chartpath ++ " cannot be a directory"))
    else
      match fs.stat sigpath with
      | .error e => (emptyVerification, some e)
      | .ok fi2 =>
        if fi2.isDir then (emptyVerification, some (sigpath ++ " cannot be a directory"))
        else
          match decodeSignature fs sigpath with
          | .error e => (emptyVerification, some ("failed to decode signature: " ++ e))
          | .ok sig =>
            match checkDetachedSignature s.keyRing sig with
            | .error e => (emptyVerification, some e)
            | .ok signer =>
              match sumArchive hexHash fs chartpath with
              | .error e => (⟨some signer, ""⟩, some e)
              | .ok sum =>
                match parseMessageBlock um us sig.plaintext with
                | .error e => (⟨some signer, ""⟩, some e)
                | .ok (_, sums) =>
                  match lookupFile sums.files (baseName chartpath) with
                  | none =>
                    (⟨some signer, ""⟩,
                     some ("provenance does not contain a SHA for a file named "
                       ++ goQuote (baseName chartpath)))
                  | some sha =>
                    if sha ≠ "sha256:" ++ sum then
                      (⟨some signer, ""⟩,
                       some ("sha256 sum does not match for " ++ baseName chartpath
                         ++ ": " ++ goQuote sha ++ " != " ++ goQuote ("sha256:" ++ sum)))
                    else (⟨some signer, "sha256:" ++ sum⟩, none)

/-- Number of substring-matching sub-identity labels over a whole keyring,
counting every matching label of every entity. -/
def matchCount (id : String) (es : EntityList) : Nat :=
  (es.map (fun e => e.identities.countP (labelMatches id))).sum

/-- A suffix of the tail is a suffix of the whole list. -/
theorem sepLead_isSuffixOf_cons (c : Char) (l : List Char)
    (h : sepLead.isSuffixOf l = true) : sepLead.isSuffixOf (c :: l) = true := by
  rw [List.isSuffixOf_iff_suffix] at h ⊢
  exact h.trans (List.suffix_cons c l)

/-- The separator cannot start strictly before the boundary in
a ++ "\n...\n" ++ b when a does not contain the separator and does not end
with "\n..." (the separator's only nontrivial self-overlap). -/
theorem sep_isPrefixOf_append_eq_false (a b : List Char) (hne : a ≠ [])
    (ha : occursIn sepChars a = false) (ha4 : sepLead.isSuffixOf a = false) :
    sepChars.isPrefixOf (a ++ (sepChars ++ b)) = false := by
  rcases a with _ | ⟨c1, _ | ⟨c2, _ | ⟨c3, _ | ⟨c4, _ | ⟨c5, rest⟩⟩⟩⟩⟩
  · exact absurd rfl hne
  · simp [sepChars, List.isPrefixOf]
  · simp [sepChars, List.isPrefixOf]
  · simp [sepChars, List.isPrefixOf]
  · by_contra hcon
    rw [Bool.not_eq_false] at hcon
    simp [sepChars, List.isPrefixOf] at hcon
    obtain ⟨h1, h2, h3, h4⟩ := hcon
    subst h1; subst h2; subst h3; subst h4
    simp [sepLead, List.isSuffixOf, List.isPrefixOf] at ha4
  · by_contra hcon
    rw [Bool.not_eq_false] at hcon
    simp [sepChars, List.isPrefixOf] at hcon
    obtain ⟨h1, h2, h3, h4, h5⟩ := hcon
    subst h1; subst h2; subst h3; subst h4; subst h5
    simp [occursIn, sepChars, List.isPrefixOf] at ha

/-- Splitting a ++ "\n...\n" ++ b at the first separator occurrence yields
(a, b) when a neither contains the separator nor ends with "\n...". -/
theorem splitFirst_encode (b a : List Char) (ha : occursIn sepChars a = false)
    (ha4 : sepLead.isSuffixOf a = false) :
    splitFirst sepChars (a ++ (sepChars ++ b)) = some (a, b) := by
  induction a with
  | nil =>
    show splitFirst sepChars (sepChars ++ b) = some ([], b)
    simp [splitFirst, sepChars, List.isPrefixOf]
  | cons c a2 ih =>
    rw [occursIn, Bool.or_eq_false_iff] at ha
    have ha2 : occursIn sepChars a2 = false := ha.2
    have ha42 : sepLead.isSuffixOf a2 = false := by
      by_contra h
      rw [Bool.not_eq_false] at h
      rw [sepLead_isSuffixOf_cons c a2 h] at ha4
      cases ha4
    have hnp := sep_isPrefixOf_append_eq_false (c :: a2) b (by simp)
      (by rw [occursIn, Bool.or_eq_false_iff]; exact ha) ha4
    rw [List.cons_append] at hnp
    show splitFirst sepChars (c :: (a2 ++ (sepChars ++ b))) = some (c :: a2, b)
    rw [splitFirst, hnp]
    simp [ih ha2 ha42]

/-- With no occurrence of the separator, splitFirst finds nothing. -/
theorem splitFirst_eq_none (sep s : List Char) (hs : occursIn sep s = false) :
    splitFirst sep s = none := by
  induction s with
  | nil =>
    cases sep with
    | nil => simp [occursIn, List.isEmpty] at hs
    | cons x xs => simp [splitFirst, List.isPrefixOf]
  | cons c s2 ih =>
    rw [occursIn, Bool.or_eq_false_iff] at hs
    rw [splitFirst, hs.1]
    simp [ih hs.2]

/-- bytes.Split of the encoded block recovers exactly the two serialized
parts, under the no-separator and no-"\n..."-suffix side conditions. -/
theorem blockParts_encode (a b : List Char) (ha : occursIn sepChars a = false)
    (ha4 : sepLead.isSuffixOf a = false) (hb : occursIn sepChars b = false) :
    blockParts (encodeBlock a b) = some (a, b) := by
  unfold blockParts encodeBlock
  rw [List.append_assoc, splitFirst_encode b a ha ha4]
  simp [splitFirst_eq_none sepChars b hb]

/-- C7 (amended): the message-block encode/decode pair is invertible for
serialized forms that do not contain the separator "\n...\n", provided
additionally that the metadata serialization does not end with "\n..."
(otherwise that suffix together with the appended separator forms an
earlier occurrence of the separator and the split is shifted); decoding
the encoded block then returns exactly the metadata and sum collection
whose serializations were embedded. -/
theorem c7_codec_roundtrip {Meta : Type} (um : List Char → Except String Meta)
    (us : List Char → Except String SumCollection)
    (m : Meta) (s : SumCollection) (mdSer sumSer : List Char)
    (hnosepMd : occursIn sepChars mdSer = false)
    (hnoleadMd : sepLead.isSuffixOf mdSer = false)
    (hnosepSum : occursIn sepChars sumSer = false)
    (hum : um mdSer = .ok m) (hus : us sumSer = .ok s) :
    parseMessageBlock um us (encodeBlock mdSer sumSer) = .ok (m, s) := by
  unfold parseMessageBlock
  rw [blockParts_encode mdSer sumSer hnosepMd hnoleadMd hnosepSum]
  simp [hum, hus]

/-- Witness for c7_codec_roundtrip at a concrete serializer pair and
payload. -/
theorem c7_codec_roundtrip_witness :
    parseMessageBlock (fun d => (.ok d : Except String (List Char)))
      (fun _ => (.ok ⟨[("a.tgz", "sha256:h")], []⟩ : Except String SumCollection))
      (encodeBlock ['m'] ['s'])
      = .ok (['m'], ⟨[("a.tgz", "sha256:h")], []⟩) :=
  c7_codec_roundtrip (fun d => .ok d) (fun _ => .ok ⟨[("a.tgz", "sha256:h")], []⟩)
    ['m'] ⟨[("a.tgz", "sha256:h")], []⟩ ['m'] ['s']
    (by decide) (by decide) (by decide) rfl rfl

/-- C7 counterexample: with the identity serializer for metadata (Meta is
its own serialized form) and a serializer pair satisfying the round-trip
contract at the used points, the metadata serialization "m\n..." and the
checksum serialization "s" contain no occurrence of the separator
"\n...\n", yet decoding the encoded block does not give back the original
pair: the "\n..." suffix plus the separator creates an earlier separator
occurrence, so the split returns "m" and "...\ns". -/
theorem c7_claim_counterexample :
    occursIn sepChars ['m', '\n', '.', '.', '.'] = false
    ∧ occursIn sepChars ['s'] = false
    ∧ (fun d => (.ok d : Except String (List Char))) ['m', '\n', '.', '.', '.']
        = .ok ['m', '\n', '.', '.', '.']
    ∧ (fun d => (.ok (⟨[(String.mk d, "")], []⟩ : SumCollection) : Except String SumCollection)) ['s']
        = .ok ⟨[("s", "")], []⟩
    ∧ parseMessageBlock (fun d => (.ok d : Except String (List Char)))
        (fun d => (.ok (⟨[(String.mk d, "")], []⟩ : SumCollection) : Except String SumCollection))
        (encodeBlock ['m', '\n', '.', '.', '.'] ['s'])
      ≠ .ok (['m', '\n', '.', '.', '.'], ⟨[("s", "")], []⟩) := by
  refine ⟨by decide, by decide, rfl, rfl, ?_⟩
  decide

/-- An exact name hit inside an entity's labels short-circuits the inner
scan with that entity. -/
theorem scanIdents_of_mem (id : String) (e : Entity) :
    ∀ (ns : List String) (cand : Option Entity) (vague : Bool), id ∈ ns →
    scanIdents id e ns cand vague = .exact e := by
  intro ns
  induction ns with
  | nil => intro cand vague h; cases h
  | cons n ns2 ih =>
    intro cand vague h
    by_cases hn : n = id
    · rw [scanIdents, if_pos hn]
    · have h2 : id ∈ ns2 := by
        cases h with
        | head => exact absurd rfl hn
        | tail _ hm => exact hm
      rw [scanIdents, if_neg hn]
      by_cases hc : labelMatches id n
      · rw [if_pos hc]; exact ih _ _ h2
      · rw [if_neg hc]; exact ih _ _ h2

/-- Inner scan without an exact hit: the candidate becomes set exactly when
a label matched (or already was set), and vague exactly when a match hits a
set candidate or two labels match. -/
theorem scanIdents_no_exact (id : String) (e : Entity) :
    ∀ (ns : List String) (cand : Option Entity) (vague : Bool),
    (∀ n ∈ ns, n ≠ id) →
    ∃ c v, scanIdents id e ns cand vague = .state c v
      ∧ (c.isSome = true ↔ (cand.isSome = true ∨ 0 < ns.countP (labelMatches id)))
      ∧ (v = true ↔ (vague = true ∨ (cand.isSome = true ∧ 0 < ns.countP (labelMatches id))
            ∨ 1 < ns.countP (labelMatches id))) := by
  intro ns
  induction ns with
  | nil =>
    intro cand vague _
    exact ⟨cand, vague, rfl, by simp, by simp⟩
  | cons n ns2 ih =>
    intro cand vague hno
    have hn : n ≠ id := hno n (List.mem_cons_self n ns2)
    have hno2 : ∀ x ∈ ns2, x ≠ id := fun x hx => hno x (List.mem_cons_of_mem n hx)
    by_cases hm : labelMatches id n
    · obtain ⟨c, v, heq, hc, hv⟩ := ih (some e) (vague || cand.isSome) hno2
      refine ⟨c, v, ?_, ?_, ?_⟩
      · rw [scanIdents, if_neg hn, if_pos hm]; exact heq
      · rw [List.countP_cons_of_pos _ _ hm, hc]
        simp
      · rw [List.countP_cons_of_pos _ _ hm, hv]
        simp only [Option.isSome_some, true_and, Bool.or_eq_true]
        constructor
        · rintro ((hV | hP) | h0 | h1)
          · exact Or.inl hV
          · exact Or.inr (Or.inl ⟨hP, by omega⟩)
          · exact Or.inr (Or.inr (by omega))
          · exact Or.inr (Or.inr (by omega))
        · rintro (hV | ⟨hP, _⟩ | h1)
          · exact Or.inl (Or.inl hV)
          · exact Or.inl (Or.inr hP)
          · by_cases h0 : 0 < ns2.countP (labelMatches id)
            · exact Or.inr (Or.inl h0)
            · omega
    · obtain ⟨c, v, heq, hc, hv⟩ := ih cand vague hno2
      refine ⟨c, v, ?_, ?_, ?_⟩
      · rw [scanIdents, if_neg hn, if_neg hm]; exact heq
      · rw [List.countP_cons_of_neg _ _ hm]; exact hc
      · rw [List.countP_cons_of_neg _ _ hm]; exact hv

/-- matchCount distributes over the head entity. -/
theorem matchCount_cons (id : String) (e : Entity) (es : EntityList) :
    matchCount id (e :: es) = e.identities.countP (labelMatches id) + matchCount id es := by
  simp [matchCount]

/-- An exact name hit anywhere in the ring makes the scan return an entity
that carries the exact label. -/
theorem scanRing_exact (id : String) (es : EntityList) :
    ∀ (cand : Option Entity) (vague : Bool),
    (∃ e ∈ es, id ∈ e.identities) →
    ∃ e2, scanRing id es cand vague = .exact e2 ∧ id ∈ e2.identities := by
  induction es with
  | nil => intro _ _ h; obtain ⟨e, he, _⟩ := h; cases he
  | cons e es2 ih =>
    intro cand vague h
    by_cases hmem : id ∈ e.identities
    · refine ⟨e, ?_, hmem⟩
      rw [scanRing, scanIdents_of_mem id e e.identities cand vague hmem]
    · obtain ⟨e3, he3, hid3⟩ := h
      have he32 : e3 ∈ es2 := by
        cases he3 with
        | head => exact absurd hid3 hmem
        | tail _ hmm2 => exact hmm2
      have hnoex : ∀ n ∈ e.identities, n ≠ id := fun n hn heq => hmem (heq ▸ hn)
      obtain ⟨c, v, heq, _, _⟩ := scanIdents_no_exact id e e.identities cand vague hnoex
      rw [scanRing, heq]
      exact ih c v ⟨e3, he32, hid3⟩

/-- Full ring scan without an exact hit anywhere: vague is set exactly when
either two matching labels were seen in total or a match arrived with the
candidate already set. -/
theorem scanRing_no_exact (id : String) (es : EntityList) :
    ∀ (cand : Option Entity) (vague : Bool),
    (∀ e ∈ es, ∀ n ∈ e.identities, n ≠ id) →
    ∃ c v, scanRing id es cand vague = .state c v
      ∧ (c.isSome = true ↔ (cand.isSome = true ∨ 0 < matchCount id es))
      ∧ (v = true ↔ (vague = true ∨ (cand.isSome = true ∧ 0 < matchCount id es)
            ∨ 1 < matchCount id es)) := by
  induction es with
  | nil =>
    intro cand vague _
    exact ⟨cand, vague, rfl, by simp [matchCount], by simp [matchCount]⟩
  | cons e es2 ih =>
    intro cand vague hno
    have hnoe : ∀ n ∈ e.identities, n ≠ id := hno e (List.mem_cons_self e es2)
    have hno2 : ∀ x ∈ es2, ∀ n ∈ x.identities, n ≠ id :=
      fun x hx => hno x (List.mem_cons_of_mem e hx)
    obtain ⟨c1, v1, heq1, hc1, hv1⟩ := scanIdents_no_exact id e e.identities cand vague hnoe
    obtain ⟨c, v, heq, hc, hv⟩ := ih c1 v1 hno2
    refine ⟨c, v, ?_, ?_, ?_⟩
    · rw [scanRing, heq1]; exact heq
    · rw [matchCount_cons, hc, hc1]
      constructor
      · rintro ((hP | hk) | hK)
        · exact Or.inl hP
        · exact Or.inr (by omega)
        · exact Or.inr (by omega)
      · rintro (hP | hkK)
        · exact Or.inl (Or.inl hP)
        · by_cases h0 : 0 < e.identities.countP (labelMatches id)
          · exact Or.inl (Or.inr h0)
          · exact Or.inr (by omega)
    · rw [matchCount_cons, hv, hv1, hc1]
      constructor
      · rintro ((hV | ⟨hP, hk⟩ | hk1) | ⟨(hP | hk), hK⟩ | hK1)
        · exact Or.inl hV
        · exact Or.inr (Or.inl ⟨hP, by omega⟩)
        · exact Or.inr (Or.inr (by omega))
        · exact Or.inr (Or.inl ⟨hP, by omega⟩)
        · exact Or.inr (Or.inr (by omega))
        · exact Or.inr (Or.inr (by omega))
      · rintro (hV | ⟨hP, hk⟩ | hk1)
        · exact Or.inl (Or.inl hV)
        · by_cases h0 : 0 < e.identities.countP (labelMatches id)
          · exact Or.inl (Or.inr (Or.inl ⟨hP, h0⟩))
          · exact Or.inr (Or.inl ⟨Or.inl hP, by omega⟩)
        · by_cases h1 : 1 < e.identities.countP (labelMatches id)
          · exact Or.inl (Or.inr (Or.inr h1))
          · by_cases h2 : 1 < matchCount id es2
            · exact Or.inr (Or.inr h2)
            · exact Or.inr (Or.inl ⟨Or.inr (by omega), by omega⟩)

/-- C3 (amended): with the keyring loaded, a non-empty query resolves as
follows.  If some sub-identity label equals the query exactly, an entity
carrying that exact label is selected with no error.  Otherwise the
"more than one key contain the id" error is returned exactly when at least
two sub-identity labels contain the query as a substring, counting label
occurrences across the whole keyring — two matching labels of one and the
same entity already count as ambiguity. -/
theorem c3_identity_resolution {Meta : Type} (fs : FS Meta) (kf id : String)
    (ring : EntityList) (hid : id ≠ "") (hr : fs.loadRing kf = .ok ring) :
    ((∃ e ∈ ring, id ∈ e.identities) →
      ∃ e, newFromKeyring fs kf id = .ok ⟨some e, ring⟩ ∧ id ∈ e.identities)
    ∧ ((∀ e ∈ ring, id ∉ e.identities) →
      (newFromKeyring fs kf id = .error ("more than one key contain the id " ++ goQuote id)
        ↔ 2 ≤ matchCount id ring)) := by
  constructor
  · intro hex
    obtain ⟨e2, heq, hmem⟩ := scanRing_exact id ring none false hex
    refine ⟨e2, ?_, hmem⟩
    simp only [newFromKeyring, hr, if_neg hid]
    rw [heq]
  · intro hnoex
    have hno : ∀ e ∈ ring, ∀ n ∈ e.identities, n ≠ id :=
      fun e he n hn heq2 => hnoex e he (heq2 ▸ hn)
    obtain ⟨c, v, heq, hc, hv⟩ := scanRing_no_exact id ring none false hno
    simp only [newFromKeyring, hr, if_neg hid, heq]
    constructor
    · intro h
      by_cases hvv : v = true
      · have hds := hv.mp hvv
        simp at hds
        omega
      · rw [if_neg hvv] at h
        simp at h
    · intro hK
      have hvv : v = true := hv.mpr (Or.inr (Or.inr (by omega)))
      rw [if_pos hvv]

/-- Witness for c3_identity_resolution: two entities whose labels both
contain "foo", no exact match, so resolution fails as ambiguous. -/
theorem c3_identity_resolution_witness :
    newFromKeyring (⟨fun _ => .error "", fun _ => .error "", fun _ => .error "",
        fun _ => .error "", fun _ => .ok [⟨["xfoo"], none, 1⟩, ⟨["yfoo"], none, 2⟩]⟩ : FS Unit)
      "pubring.gpg" "foo"
      = .error "more than one key contain the id \"foo\"" := by
  have h := c3_identity_resolution
    (⟨fun _ => .error "", fun _ => .error "", fun _ => .error "",
        fun _ => .error "", fun _ => .ok [⟨["xfoo"], none, 1⟩, ⟨["yfoo"], none, 2⟩]⟩ : FS Unit)
    "pubring.gpg" "foo" [⟨["xfoo"], none, 1⟩, ⟨["yfoo"], none, 2⟩] (by decide) rfl
  exact (h.2 (by decide)).mpr (by decide)

/-- C3 counterexample: one single entity carries two labels "afoo" and
"bfoo" that both contain the query "foo", with no exact match.  Only one
distinct entity yields a substring match (second conjunct), so the claim
says there is no ambiguity; the code nevertheless returns the ambiguity
error, because its vague flag only compares the candidate against nil, not
against the entity at hand. -/
theorem c3_claim_counterexample :
    newFromKeyring (⟨fun _ => .error "", fun _ => .error "", fun _ => .error "",
        fun _ => .error "", fun _ => .ok [⟨["afoo", "bfoo"], none, 1⟩]⟩ : FS Unit)
      "pubring.gpg" "foo"
      = .error "more than one key contain the id \"foo\""
    ∧ ([⟨["afoo", "bfoo"], none, 1⟩] : EntityList).filter
        (fun e => e.identities.any (labelMatches "foo")) = [⟨["afoo", "bfoo"], none, 1⟩]
    ∧ (∀ e ∈ ([⟨["afoo", "bfoo"], none, 1⟩] : EntityList), "foo" ∉ e.identities) := by
  refine ⟨by decide, by decide, by decide⟩

/-- C5 (amended): with the keyring loaded, a non-empty query that matches
no label exactly and at most one label by substring resolves without
error; in the zero-match case the resulting Signatory has no signing
entity (nil), deferring any failure to a later signing attempt. -/
theorem c5_deferred_resolution {Meta : Type} (fs : FS Meta) (kf id : String)
    (ring : EntityList) (hid : id ≠ "") (hr : fs.loadRing kf = .ok ring)
    (hnoex : ∀ e ∈ ring, id ∉ e.identities) :
    (matchCount id ring = 0 → newFromKeyring fs kf id = .ok ⟨none, ring⟩)
    ∧ (matchCount id ring = 1 → ∃ e, newFromKeyring fs kf id = .ok ⟨some e, ring⟩) := by
  have hno : ∀ e ∈ ring, ∀ n ∈ e.identities, n ≠ id :=
    fun e he n hn heq2 => hnoex e he (heq2 ▸ hn)
  obtain ⟨c, v, heq, hc, hv⟩ := scanRing_no_exact id ring none false hno
  constructor
  · intro h0
    have hvf : v = false := by
      cases hvb : v
      · rfl
      · have hds := hv.mp hvb
        simp [h0] at hds
    have hcf : c = none := by
      cases hcb : c with
      | none => rfl
      | some x =>
        have hds := hc.mp (by rw [hcb]; rfl)
        simp [h0] at hds
    simp only [newFromKeyring, hr, if_neg hid, heq]
    simp [hvf, hcf]
  · intro h1
    have hvf : v = false := by
      cases hvb : v
      · rfl
      · have hds := hv.mp hvb
        simp [h1] at hds
    have hcs : c.isSome = true := hc.mpr (Or.inr (by omega))
    obtain ⟨e, hce⟩ := Option.isSome_iff_exists.mp hcs
    refine ⟨e, ?_⟩
    simp only [newFromKeyring, hr, if_neg hid, heq]
    simp [hvf, hce]

/-- Witness for c5_deferred_resolution: a query matching nothing yields a
Signatory with no signing entity and no error. -/
theorem c5_deferred_resolution_witness :
    newFromKeyring (⟨fun _ => .error "", fun _ => .error "", fun _ => .error "",
        fun _ => .error "", fun _ => .ok [⟨["alice"], none, 3⟩]⟩ : FS Unit)
      "kr.gpg" "zz" = .ok ⟨none, [⟨["alice"], none, 3⟩]⟩ := by
  have h := c5_deferred_resolution
    (⟨fun _ => .error "", fun _ => .error "", fun _ => .error "",
        fun _ => .error "", fun _ => .ok [⟨["alice"], none, 3⟩]⟩ : FS Unit)
    "kr.gpg" "zz" [⟨["alice"], none, 3⟩] (by decide) rfl (by decide)
  exact h.1 (by decide)

/-- C5 counterexample: a keyring with exactly one entity matched (twice, by
its two labels "xbar" and "ybar") and no exact match: the claim says
NewFromKeyring returns without error, but the code reports ambiguity. -/
theorem c5_claim_counterexample :
    newFromKeyring (⟨fun _ => .error "", fun _ => .error "", fun _ => .error "",
        fun _ => .error "", fun _ => .ok [⟨["xbar", "ybar"], none, 5⟩]⟩ : FS Unit)
      "ring.gpg" "bar"
      = .error "more than one key contain the id \"bar\""
    ∧ ([⟨["xbar", "ybar"], none, 5⟩] : EntityList).filter
        (fun e => e.identities.any (labelMatches "bar")) = [⟨["xbar", "ybar"], none, 5⟩]
    ∧ (∀ e ∈ ([⟨["xbar", "ybar"], none, 5⟩] : EntityList), "bar" ∉ e.identities) := by
  refine ⟨by decide, by decide, by decide⟩

/-- C2 exhibits (code bug): at a path whose stat reports a regular file but
whose open fails, sumArchive does return the I/O error (first conjunct),
yet ClearSign returns success with the empty string, because the source
discards the messageBlock error with `return "", nil` (second conjunct).
Moreover a read failure after a successful open is discarded inside
sumArchive itself (the io.Copy error is dropped), which hashes only the
partial content and still succeeds (third conjunct). -/
theorem c2_clearsign_swallows_io_error :
    sumArchive (fun _ => "h")
      (⟨fun _ => .ok ⟨false⟩, fun _ => .error "open f.tgz: permission denied",
        fun _ => .error "", fun _ => (.ok 0 : Except String Nat), fun _ => .error ""⟩ : FS Nat)
      "f.tgz"
      = .error "open f.tgz: permission denied"
    ∧ clearSign (fun _ => "h") (fun _ => .ok ['m']) (fun _ => .ok ['s'])
        ⟨some ⟨["alice"], some 1, 7⟩, []⟩
        (⟨fun _ => .ok ⟨false⟩, fun _ => .error "open f.tgz: permission denied",
          fun _ => .error "", fun _ => (.ok 0 : Except String Nat), fun _ => .error ""⟩ : FS Nat)
        "f.tgz"
      = .ok .empty
    ∧ sumArchive (fun bs => String.mk (bs.map (fun _ => 'x')))
        (⟨fun _ => .ok ⟨false⟩, fun _ => .ok (.failed [1] "unexpected EOF"),
          fun _ => .error "", fun _ => (.ok 0 : Except String Nat), fun _ => .error ""⟩ : FS Nat)
        "g.tgz"
      = .ok "x" :=
  ⟨rfl, rfl, rfl⟩

/-- C8: a Signatory whose signing entity is present but carries no private
key makes ClearSign fail with "private key not found" for every file
system and every path, i.e. before the archive path is examined or read. -/
theorem c8_private_key_checked_first {Meta : Type} (s : Signatory) (e : Entity)
    (hent : s.entity = some e) (hpk : e.privateKey = none) :
    ∀ (hexHash : List Nat → String) (mm2 : Meta → Except String (List Char))
      (ms2 : SumCollection → Except String (List Char)) (fs : FS Meta) (p : String),
    clearSign hexHash mm2 ms2 s fs p = .err "private key not found" := by
  intro hh mm2 ms2 fs p
  simp only [clearSign, hent, hpk]

/-- Witness for c8_private_key_checked_first: the file system rejects every
access, yet the private-key error is still what comes back. -/
theorem c8_private_key_checked_first_witness :
    clearSign (fun _ => "h") (fun _ => (.ok ['m'] : Except String (List Char)))
      (fun _ => .ok ['s']) ⟨some ⟨["alice"], none, 1⟩, []⟩
      (⟨fun _ => .error "stat not reached", fun _ => .error "open not reached",
        fun _ => .error "", fun _ => (.ok 0 : Except String Nat), fun _ => .error ""⟩ : FS Nat)
      "f.tgz"
      = .err "private key not found" :=
  c8_private_key_checked_first ⟨some ⟨["alice"], none, 1⟩, []⟩ ⟨["alice"], none, 1⟩ rfl rfl
    (fun _ => "h") (fun _ => .ok ['m']) (fun _ => .ok ['s'])
    (⟨fun _ => .error "stat not reached", fun _ => .error "open not reached",
      fun _ => .error "", fun _ => (.ok 0 : Except String Nat), fun _ => .error ""⟩ : FS Nat)
    "f.tgz"

/-- C10: with a nil signing entity, ClearSign's very first access
(s.Entity.PrivateKey) dereferences nil and panics, for every file system
and path; only with a non-nil entity and a missing private key is the
"private key not found" error branch reached instead. -/
theorem c10_nil_entity_dereference {Meta : Type} (ring : EntityList)
    (hexHash : List Nat → String) (mm2 : Meta → Except String (List Char))
    (ms2 : SumCollection → Except String (List Char)) :
    (∀ (fs : FS Meta) (p : String),
      clearSign hexHash mm2 ms2 ⟨none, ring⟩ fs p
        = .panic "runtime error: invalid memory address or nil pointer dereference")
    ∧ (∀ (fs : FS Meta) (p : String) (e : Entity), e.privateKey = none →
      clearSign hexHash mm2 ms2 ⟨some e, ring⟩ fs p = .err "private key not found") := by
  constructor
  · intro fs p; rfl
  · intro fs p e hpk; simp only [clearSign, hpk]

/-- Witness for c10_nil_entity_dereference at a concrete Signatory pair. -/
theorem c10_nil_entity_dereference_witness :
    clearSign (fun _ => "h") (fun _ => (.ok ['m'] : Except String (List Char)))
      (fun _ => .ok ['s']) ⟨none, []⟩
      (⟨fun _ => .error "", fun _ => .error "", fun _ => .error "",
        fun _ => (.ok 0 : Except String Nat), fun _ => .error ""⟩ : FS Nat) "c.tgz"
      = .panic "runtime error: invalid memory address or nil pointer dereference"
    ∧ clearSign (fun _ => "h") (fun _ => (.ok ['m'] : Except String (List Char)))
      (fun _ => .ok ['s']) ⟨some ⟨["bob"], none, 2⟩, []⟩
      (⟨fun _ => .error "", fun _ => .error "", fun _ => .error "",
        fun _ => (.ok 0 : Except String Nat), fun _ => .error ""⟩ : FS Nat) "c.tgz"
      = .err "private key not found" :=
  ⟨(c10_nil_entity_dereference [] (fun _ => "h") (fun _ => .ok ['m']) (fun _ => .ok ['s'])).1
      (⟨fun _ => .error "", fun _ => .error "", fun _ => .error "",
        fun _ => (.ok 0 : Except String Nat), fun _ => .error ""⟩ : FS Nat) "c.tgz",
   (c10_nil_entity_dereference [] (fun _ => "h") (fun _ => .ok ['m']) (fun _ => .ok ['s'])).2
      (⟨fun _ => .error "", fun _ => .error "", fun _ => .error "",
        fun _ => (.ok 0 : Except String Nat), fun _ => .error ""⟩ : FS Nat) "c.tgz"
      ⟨["bob"], none, 2⟩ rfl⟩

/-- C6: a directory in place of a file is rejected with the type-mismatch
error before any hashing or cryptographic work: ClearSign (given it passed
its private-key precondition) rejects a directory chart path, and Verify
rejects a directory in either position, checking the chart path first and
the signature path second, both before touching any content — the file
system's readers and the keyring are arbitrary in every conjunct. -/
theorem c6_directory_rejection {Meta : Type} (hexHash : List Nat → String)
    (mm2 : Meta → Except String (List Char)) (ms2 : SumCollection → Except String (List Char))
    (um : List Char → Except String Meta) (us : List Char → Except String SumCollection)
    (s : Signatory) (e : Entity) (k : Nat)
    (hent : s.entity = some e) (hpk : e.privateKey = some k)
    (fs : FS Meta) (p q : String) :
    (fs.stat p = .ok ⟨true⟩ → clearSign hexHash mm2 ms2 s fs p = .err "cannot sign a directory")
    ∧ (fs.stat p = .ok ⟨true⟩ →
        verify hexHash um us s fs p q = (emptyVerification, some (p ++ " cannot be a directory")))
    ∧ (fs.stat p = .ok ⟨false⟩ → fs.stat q = .ok ⟨true⟩ →
        verify hexHash um us s fs p q = (emptyVerification, some (q ++ " cannot be a directory"))) := by
  refine ⟨?_, ?_, ?_⟩
  · intro hd
    simp [clearSign, hent, hpk, hd]
  · intro hd
    simp [verify, hd]
  · intro hp hq
    simp [verify, hp, hq]

/-- Witness for c6_directory_rejection: signing a directory fails with the
type-mismatch error even though every content reader is an error stub. -/
theorem c6_directory_rejection_witness :
    clearSign (fun _ => "h") (fun _ => (.ok ['m'] : Except String (List Char)))
      (fun _ => .ok ['s']) ⟨some ⟨["alice"], some 1, 7⟩, []⟩
      (⟨fun _ => .ok ⟨true⟩, fun _ => .error "", fun _ => .error "",
        fun _ => (.ok 0 : Except String Nat), fun _ => .error ""⟩ : FS Nat) "chartdir"
      = .err "cannot sign a directory" :=
  (c6_directory_rejection (fun _ => "h") (fun _ => .ok ['m']) (fun _ => .ok ['s'])
    (fun _ => .ok 0) (fun _ => .ok ⟨[], []⟩)
    ⟨some ⟨["alice"], some 1, 7⟩, []⟩ ⟨["alice"], some 1, 7⟩ 1 rfl rfl
    (⟨fun _ => .ok ⟨true⟩, fun _ => .error "", fun _ => .error "",
      fun _ => (.ok 0 : Except String Nat), fun _ => .error ""⟩ : FS Nat)
    "chartdir" "chartdir.prov").1 rfl

/-- C4: once the signature has been decoded and verified and the message
block parsed, Verify looks up the archive basename in the checksum
collection and (a) fails with the "provenance does not contain a SHA"
error when the key is absent, (b) fails with the distinct "sha256 sum does
not match" error when the recorded value differs from the recomputed
prefixed digest, and (c) succeeds with the authenticated signer and the
matched digest string when they agree. -/
theorem c4_sum_check_trichotomy {Meta : Type} (hexHash : List Nat → String)
    (um : List Char → Except String Meta) (us : List Char → Except String SumCollection)
    (s : Signatory) (fs : FS Meta) (p q : String)
    (block : ClearBlock) (signer : Entity) (d : String) (md : Meta) (sums : SumCollection)
    (h1 : fs.stat p = .ok ⟨false⟩) (h2 : fs.stat q = .ok ⟨false⟩)
    (h3 : decodeSignature fs q = .ok block)
    (h4 : checkDetachedSignature s.keyRing block = .ok signer)
    (h5 : sumArchive hexHash fs p = .ok d)
    (h6 : parseMessageBlock um us block.plaintext = .ok (md, sums)) :
    (lookupFile sums.files (baseName p) = none →
      verify hexHash um us s fs p q
        = (⟨some signer, ""⟩,
           some ("provenance does not contain a SHA for a file named " ++ goQuote (baseName p))))
    ∧ (∀ sha, lookupFile sums.files (baseName p) = some sha → sha ≠ "sha256:" ++ d →
      verify hexHash um us s fs p q
        = (⟨some signer, ""⟩,
           some ("sha256 sum does not match for " ++ baseName p ++ ": "
             ++ goQuote sha ++ " != " ++ goQuote ("sha256:" ++ d))))
    ∧ (∀ sha, lookupFile sums.files (baseName p) = some sha → sha = "sha256:" ++ d →
      verify hexHash um us s fs p q = (⟨some signer, "sha256:" ++ d⟩, none)) := by
  refine ⟨?_, ?_, ?_⟩
  · intro hl
    simp [verify, h1, h2, h3, h4, h5, h6, hl]
  · intro sha hl hne
    simp [verify, h1, h2, h3, h4, h5, h6, hl, hne]
  · intro sha hl he
    subst he
    simp [verify, h1, h2, h3, h4, h5, h6, hl]

/-- Witness for c4_sum_check_trichotomy: the success case at a concrete
archive, attestation and keyring. -/
theorem c4_sum_check_trichotomy_witness :
    verify (fun _ => "h") (fun _ => (.ok 0 : Except String Nat))
      (fun _ => .ok ⟨[("a.tgz", "sha256:h")], []⟩)
      ⟨none, [⟨["alice"], none, 7⟩]⟩
      (⟨fun _ => .ok ⟨false⟩, fun _ => .ok (.full [1]),
        fun _ => .ok (.block ⟨encodeBlock ['m'] ['s'], 7⟩),
        fun _ => (.ok 0 : Except String Nat), fun _ => .error ""⟩ : FS Nat)
      "a.tgz" "a.tgz.prov"
      = (⟨some ⟨["alice"], none, 7⟩, "sha256:h"⟩, none) :=
  (c4_sum_check_trichotomy (fun _ => "h") (fun _ => .ok 0)
    (fun _ => .ok ⟨[("a.tgz", "sha256:h")], []⟩)
    ⟨none, [⟨["alice"], none, 7⟩]⟩
    (⟨fun _ => .ok ⟨false⟩, fun _ => .ok (.full [1]),
      fun _ => .ok (.block ⟨encodeBlock ['m'] ['s'], 7⟩),
      fun _ => (.ok 0 : Except String Nat), fun _ => .error ""⟩ : FS Nat)
    "a.tgz" "a.tgz.prov"
    ⟨encodeBlock ['m'] ['s'], 7⟩ ⟨["alice"], none, 7⟩ "h" 0 ⟨[("a.tgz", "sha256:h")], []⟩
    rfl rfl rfl rfl rfl (by decide)).2.2 "sha256:h" (by decide) rfl

/-- C9 counterexample: a correctly signed attestation whose recorded digest
mismatches the recomputed one makes Verify fail, and the Verification
returned alongside that non-nil error carries a populated SignedBy field —
ver.SignedBy is assigned before the integrity checks and is not cleared on
the later failure paths. -/
theorem c9_claim_counterexample :
    verify (fun _ => "h") (fun _ => (.ok 0 : Except String Nat))
      (fun _ => .ok ⟨[("a.tgz", "sha256:WRONG")], []⟩)
      ⟨none, [⟨["alice"], none, 7⟩]⟩
      (⟨fun _ => .ok ⟨false⟩, fun _ => .ok (.full [1]),
        fun _ => .ok (.block ⟨encodeBlock ['m'] ['s'], 7⟩),
        fun _ => (.ok 0 : Except String Nat), fun _ => .error ""⟩ : FS Nat)
      "a.tgz" "a.tgz.prov"
      = (⟨some ⟨["alice"], none, 7⟩, ""⟩,
         some ("sha256 sum does not match for a.tgz: \"sha256:WRONG\" != \"sha256:h\""))
    ∧ (some ⟨["alice"], none, 7⟩ : Option Entity) ≠ none := by
  refine ⟨by decide, by decide⟩

/-- C9 (amended): on every failure path of Verify the returned
Verification has an empty FileHash, so a populated FileHash never
accompanies a non-nil error; the SignedBy field, however, is populated on
the failure paths that come after signature verification succeeded, so
callers must distinguish success only by the error value. -/
theorem c9_filehash_empty_on_error {Meta : Type} (hexHash : List Nat → String)
    (um : List Char → Except String Meta) (us : List Char → Except String SumCollection)
    (s : Signatory) (fs : FS Meta) (p q : String) (msg : String)
    (h : (verify hexHash um us s fs p q).2 = some msg) :
    (verify hexHash um us s fs p q).1.fileHash = "" := by
  have hd : (verify hexHash um us s fs p q).1.fileHash = ""
      ∨ (verify hexHash um us s fs p q).2 = none := by
    unfold verify
    repeat' split
    all_goals simp [emptyVerification]
  rcases hd with hd | hd
  · exact hd
  · rw [h] at hd
    cases hd

/-- Witness for c9_filehash_empty_on_error at a concrete failing verify. -/
theorem c9_filehash_empty_on_error_witness :
    (verify (fun _ => "h") (fun _ => (.ok 0 : Except String Nat)) (fun _ => .ok ⟨[], []⟩)
      ⟨none, []⟩ (⟨fun _ => .error "nostat", fun _ => .error "", fun _ => .error "",
        fun _ => (.ok 0 : Except String Nat), fun _ => .error ""⟩ : FS Nat)
      "a.tgz" "a.tgz.prov").1.fileHash = "" :=
  c9_filehash_empty_on_error (fun _ => "h") (fun _ => .ok 0) (fun _ => .ok ⟨[], []⟩)
    ⟨none, []⟩ (⟨fun _ => .error "nostat", fun _ => .error "", fun _ => .error "",
      fun _ => (.ok 0 : Except String Nat), fun _ => .error ""⟩ : FS Nat)
    "a.tgz" "a.tgz.prov" "nostat" rfl

/-- C1: signing an archive and verifying it against the produced
attestation succeeds, and the resulting Verification's FileHash is the
independently computed digest of the archive bytes prefixed with
"sha256:".  The Signatory's entity carries a private key, the keyring
resolves the signer's key, the same file system serves both phases, the
attestation file holds exactly what ClearSign returned, and the yaml
serializers obey their (de)serialization contract at the used points with
serialized forms free of the separator (and the metadata serialization not
ending in "\n..."). -/
theorem c1_sign_verify_roundtrip {Meta : Type} (hexHash : List Nat → String)
    (mm2 : Meta → Except String (List Char)) (ms2 : SumCollection → Except String (List Char))
    (um : List Char → Except String Meta) (us : List Char → Except String SumCollection)
    (s : Signatory) (fs : FS Meta) (chartpath sigpath : String)
    (e esign : Entity) (k : Nat) (bs : List Nat) (m m2 : Meta) (mdSer sumSer : List Char)
    (t : SigText)
    (hent : s.entity = some e) (hpk : e.privateKey = some k)
    (hstat : fs.stat chartpath = .ok ⟨false⟩)
    (hread : fs.readBytes chartpath = .ok (.full bs))
    (hchart : fs.loadChart chartpath = .ok m)
    (hmm2 : mm2 m = .ok mdSer)
    (hms2 : ms2 ⟨[(baseName chartpath, "sha256:" ++ hexHash bs)], []⟩ = .ok sumSer)
    (hnosepMd : occursIn sepChars mdSer = false)
    (hnoleadMd : sepLead.isSuffixOf mdSer = false)
    (hnosepSum : occursIn sepChars sumSer = false)
    (hum : um mdSer = .ok m2)
    (hus : us sumSer = .ok ⟨[(baseName chartpath, "sha256:" ++ hexHash bs)], []⟩)
    (hsig : clearSign hexHash mm2 ms2 s fs chartpath = .ok t)
    (hsigstat : fs.stat sigpath = .ok ⟨false⟩)
    (hsigfile : fs.readSig sigpath = .ok t)
    (hfind : s.keyRing.find? (fun e2 => e2.keyId == e.keyId) = some esign) :
    verify hexHash um us s fs chartpath sigpath
      = (⟨some esign, "sha256:" ++ hexHash bs⟩, none) := by
  have hmb : messageBlock hexHash mm2 ms2 fs chartpath = .ok (encodeBlock mdSer sumSer) := by
    simp [messageBlock, sumArchive, hread, hchart, hmm2, hms2]
  have hcs : clearSign hexHash mm2 ms2 s fs chartpath
      = .ok (.block ⟨encodeBlock mdSer sumSer, e.keyId⟩) := by
    simp [clearSign, hent, hpk, hstat, hmb]
  rw [hcs] at hsig
  injection hsig with hseq
  subst hseq
  have hdec : decodeSignature fs sigpath = .ok ⟨encodeBlock mdSer sumSer, e.keyId⟩ := by
    simp [decodeSignature, hsigfile]
  have hchk : checkDetachedSignature s.keyRing ⟨encodeBlock mdSer sumSer, e.keyId⟩
      = .ok esign := by
    simp [checkDetachedSignature, hfind]
  have hsum : sumArchive hexHash fs chartpath = .ok (hexHash bs) := by
    simp [sumArchive, hread]
  have hparse : parseMessageBlock um us (encodeBlock mdSer sumSer)
      = .ok (m2, ⟨[(baseName chartpath, "sha256:" ++ hexHash bs)], []⟩) := by
    unfold parseMessageBlock
    rw [blockParts_encode mdSer sumSer hnosepMd hnoleadMd hnosepSum]
    simp [hum, hus]
  simp [verify, hstat, hsigstat, hdec, hchk, hsum, hparse, lookupFile]

/-- Witness for c1_sign_verify_roundtrip: a full concrete sign-then-verify
round trip over a one-byte archive. -/
theorem c1_sign_verify_roundtrip_witness :
    verify (fun _ => "h") (fun _ => (.ok 0 : Except String Nat))
      (fun _ => .ok ⟨[("a.tgz", "sha256:h")], []⟩)
      ⟨some ⟨["alice"], some 1, 7⟩, [⟨["alice"], none, 7⟩]⟩
      (⟨fun _ => .ok ⟨false⟩, fun _ => .ok (.full [1]),
        fun _ => .ok (.block ⟨encodeBlock ['m'] ['s'], 7⟩),
        fun _ => (.ok 0 : Except String Nat), fun _ => .error ""⟩ : FS Nat)
      "a.tgz" "a.tgz.prov"
      = (⟨some ⟨["alice"], none, 7⟩, "sha256:h"⟩, none) :=
  c1_sign_verify_roundtrip (fun _ => "h") (fun _ => .ok ['m']) (fun _ => .ok ['s'])
    (fun _ => .ok 0) (fun _ => .ok ⟨[("a.tgz", "sha256:h")], []⟩)
    ⟨some ⟨["alice"], some 1, 7⟩, [⟨["alice"], none, 7⟩]⟩
    (⟨fun _ => .ok ⟨false⟩, fun _ => .ok (.full [1]),
      fun _ => .ok (.block ⟨encodeBlock ['m'] ['s'], 7⟩),
      fun _ => (.ok 0 : Except String Nat), fun _ => .error ""⟩ : FS Nat)
    "a.tgz" "a.tgz.prov"
    ⟨["alice"], some 1, 7⟩ ⟨["alice"], none, 7⟩ 1 [1] 0 0 ['m'] ['s']
    (.block ⟨encodeBlock ['m'] ['s'], 7⟩)
    rfl rfl rfl rfl rfl rfl rfl (by decide) (by decide) (by decide) rfl rfl rfl rfl rfl rfl

end Provenance
